import Mathlib

/-!
# InaiUrai task-marketplace core: shallow embedding and verification

This file embeds, in Lean 4, the credit-escrow, settlement, dispatch and
matchmaking core of the InaiUrai backend (Go), and proves or refutes the
specification claims about it.

Embedding conventions:
* Go `int` is modelled as `Int`; Go integer division (truncation toward
  zero) is `Int.tdiv`.
* UUIDs are modelled as `Nat` identifiers.
* The accounts table is an association list `List (Nat × Int)` from account
  id to `credit_balance`; SQL `UPDATE ... WHERE id = $1` touches the first
  matching row and fails (no row) when the id is absent.
* The `credit_ledger` table is an append-only `List CreditLedgerEntry`.
* A database transaction that returns an error is rolled back, so a failing
  operation leaves the state unchanged; operations return
  `Except EscrowError EscrowState`.
-/

namespace InaiUrai

/-- Entry types of the credit ledger (`models.CreditEntry*` constants). -/
inductive EntryType where
  | escrowLock
  | escrowRelease
  | taskEarning
  | platformFee
  | refund
deriving DecidableEq, Repr

/-- A `credit_ledger` row (`models.CreditLedger`); timestamps and the row id
are irrelevant to the claims and omitted. -/
structure CreditLedgerEntry where
  accountID : Nat
  taskID : Option Nat
  entryType : EntryType
  amount : Int
  balanceAfter : Int
deriving DecidableEq, Repr

/-- The mutable store seen by the escrow service: account balances plus the
append-only credit ledger. -/
structure EscrowState where
  balances : List (Nat × Int)
  ledger : List CreditLedgerEntry
deriving DecidableEq, Repr

/-- Constant `models.SystemPlatformAccountID` (uuid ...0001), as a `Nat` id. -/
def SystemPlatformAccountID : Nat := 1

/-- Errors surfaced by the escrow operations: `ErrInsufficientFunds` from
`LockCredits`, and the driver's no-rows error for a missing account. -/
inductive EscrowError where
  | insufficientFunds
  | notFound
deriving DecidableEq, Repr

/-- Model of `SELECT credit_balance FROM accounts WHERE id = $1` — first matching row
of the association list, `none` when the account does not exist
(`AccountRepo.GetByIDForUpdate` returns an error then). -/
def getBalance : List (Nat × Int) → Nat → Option Int
  | [], _ => none
  | (k, v) :: rest, id => if k = id then some v else getBalance rest id

/-- Model of `AccountRepo.AddCredits`: `UPDATE accounts SET credit_balance =
credit_balance + $1 WHERE id = $2 RETURNING credit_balance`. Returns the
updated table and the new balance, or `none` when the account is absent. -/
def addCredits : List (Nat × Int) → Nat → Int → Option (List (Nat × Int) × Int)
  | [], _, _ => none
  | (k, v) :: rest, id, amt =>
    if k = id then some ((k, v + amt) :: rest, v + amt)
    else match addCredits rest id amt with
      | none => none
      | some (rest2, nb) => some ((k, v) :: rest2, nb)

/-- Model of `AccountRepo.DeductCredits`: `UPDATE accounts SET credit_balance =
credit_balance - $1 WHERE id = $2 AND credit_balance >= $1 RETURNING
credit_balance`. Fails (no row updated) when the account is absent or the
balance is below the amount. -/
def deductCredits : List (Nat × Int) → Nat → Int → Option (List (Nat × Int) × Int)
  | [], _, _ => none
  | (k, v) :: rest, id, amt =>
    if k = id then
      if amt ≤ v then some ((k, v - amt) :: rest, v - amt) else none
    else match deductCredits rest id amt with
      | none => none
      | some (rest2, nb) => some ((k, v) :: rest2, nb)

/-- Model of `EscrowService.LockCredits`: lock the account row, fail with
`ErrInsufficientFunds` when `balance < amount`, otherwise deduct and append
an `escrow_lock` ledger entry recording the new balance. -/
def lockCredits (s : EscrowState) (accountID taskID : Nat) (amount : Int) :
    Except EscrowError EscrowState :=
  match getBalance s.balances accountID with
  | none => .error .notFound
  | some bal =>
    if bal < amount then .error .insufficientFunds
    else match deductCredits s.balances accountID amount with
      | none => .error .notFound
      | some (bals2, newBalance) =>
        .ok { balances := bals2
              ledger := s.ledger ++
                [⟨accountID, some taskID, .escrowLock, amount, newBalance⟩] }

/-- Model of `EscrowService.SettleTask`: compute `platformFee = actualCost * 10 / 100`
(Go truncating division), `workerEarning = actualCost - platformFee`,
`remainder = max (budget - actualCost) 0`; lock the three account rows
(fails when one is missing); credit the worker (`task_earning`), the
platform (`platform_fee`) and, when `remainder > 0`, the requester
(`escrow_release`). -/
def settleTask (s : EscrowState) (taskID requesterID workerID : Nat)
    (budget actualCost : Int) : Except EscrowError EscrowState :=
  let platformFee := Int.tdiv (actualCost * 10) 100
  let workerEarning := actualCost - platformFee
  let remainder := if budget - actualCost < 0 then 0 else budget - actualCost
  -- GetByIDForUpdate on requester, worker, platform (sorted order only
  -- affects lock acquisition, not the resulting state)
  match getBalance s.balances requesterID,
        getBalance s.balances workerID,
        getBalance s.balances SystemPlatformAccountID with
  | some _, some _, some _ =>
    match addCredits s.balances workerID workerEarning with
    | none => .error .notFound
    | some (bals1, newWorker) =>
      let led1 := s.ledger ++
        [⟨workerID, some taskID, .taskEarning, workerEarning, newWorker⟩]
      match addCredits bals1 SystemPlatformAccountID platformFee with
      | none => .error .notFound
      | some (bals2, newPlatform) =>
        let led2 := led1 ++
          [⟨SystemPlatformAccountID, some taskID, .platformFee, platformFee,
            newPlatform⟩]
        if remainder > 0 then
          match addCredits bals2 requesterID remainder with
          | none => .error .notFound
          | some (bals3, newReq) =>
            .ok { balances := bals3
                  ledger := led2 ++
                    [⟨requesterID, some taskID, .escrowRelease, remainder,
                      newReq⟩] }
        else .ok { balances := bals2, ledger := led2 }
  | _, _, _ => .error .notFound

/-- Model of `EscrowService.SettleError`: when `budget > 0`, lock the requester row
and refund the full budget with a `refund` ledger entry; a no-op when
`budget ≤ 0`. -/
def settleError (s : EscrowState) (taskID requesterID : Nat) (budget : Int) :
    Except EscrowError EscrowState :=
  if budget ≤ 0 then .ok s
  else match getBalance s.balances requesterID with
    | none => .error .notFound
    | some _ =>
      match addCredits s.balances requesterID budget with
      | none => .error .notFound
      | some (bals2, newBalance) =>
        .ok { balances := bals2
              ledger := s.ledger ++
                [⟨requesterID, some taskID, .refund, budget, newBalance⟩] }

/-- Operation `EscrowService.RefundFailed` is the same as `SettleError`. -/
def refundFailed (s : EscrowState) (taskID requesterID : Nat) (budget : Int) :
    Except EscrowError EscrowState :=
  settleError s taskID requesterID budget

/-- One escrow operation of the three kinds the conservation claim ranges
over. -/
inductive EscrowOp where
  | lock (accountID taskID : Nat) (amount : Int)
  | settle (taskID requesterID workerID : Nat) (budget actualCost : Int)
  | refund (taskID requesterID : Nat) (budget : Int)
deriving DecidableEq, Repr

/-- Apply one escrow operation; a failing operation's transaction rolls back
and leaves the state unchanged. -/
def applyOp (s : EscrowState) : EscrowOp → EscrowState
  | .lock a t amt =>
    match lockCredits s a t amt with
    | .ok s2 => s2
    | .error _ => s
  | .settle t r w b c =>
    match settleTask s t r w b c with
    | .ok s2 => s2
    | .error _ => s
  | .refund t r b =>
    match refundFailed s t r b with
    | .ok s2 => s2
    | .error _ => s

/-- Apply a sequence of escrow operations in order. -/
def applyOps (s : EscrowState) (ops : List EscrowOp) : EscrowState :=
  ops.foldl applyOp s

/-- Sum of all account balances. -/
def balancesSum (bals : List (Nat × Int)) : Int :=
  (bals.map Prod.snd).sum

/-- Sum of all account balances of a state. -/
def totalBalance (s : EscrowState) : Int :=
  balancesSum s.balances

/-- Outcome of one task's escrow lifecycle after its lock: a settlement to a
worker, or a full refund. -/
inductive TaskOutcome where
  | settle (workerID : Nat) (actualCost : Int)
  | refund
deriving DecidableEq, Repr

/-- A complete per-task escrow lifecycle: one lock of the budget by the
requester, then one settlement or one full refund of the same budget. -/
structure Lifecycle where
  taskID : Nat
  requesterID : Nat
  budget : Int
  outcome : TaskOutcome
deriving DecidableEq, Repr

/-- The escrow operations a lifecycle performs, in order. -/
def lifecycleOps (l : Lifecycle) : List EscrowOp :=
  match l.outcome with
  | .settle w c => [.lock l.requesterID l.taskID l.budget,
      .settle l.taskID l.requesterID w l.budget c]
  | .refund => [.lock l.requesterID l.taskID l.budget,
      .refund l.taskID l.requesterID l.budget]

/-- Well-formedness of one lifecycle against the current state: positive
budget, an existing requester with sufficient balance, and — for a
settlement — an actual cost with `1 ≤ c ≤ budget` plus existing worker and
platform accounts. These are exactly the conditions the backend establishes
before calling the escrow service (positive budget at admission, lock at
admission, settlement inputs per the callback handler). -/
def lifecycleOKb (s : EscrowState) (l : Lifecycle) : Bool :=
  (1 ≤ l.budget) &&
  (match getBalance s.balances l.requesterID with
   | some rb => l.budget ≤ rb
   | none => false) &&
  (match l.outcome with
   | .settle w c => (1 ≤ c) && (c ≤ l.budget) &&
       (getBalance s.balances w).isSome &&
       (getBalance s.balances SystemPlatformAccountID).isSome
   | .refund => true)

/-- Well-formedness of a sequence of lifecycles, each checked against the
state produced by its predecessors. -/
def seqOKb (s : EscrowState) : List Lifecycle → Bool
  | [] => true
  | l :: ls => lifecycleOKb s l && seqOKb (applyOps s (lifecycleOps l)) ls

/-! ## Tasks, agents, and the result-callback handler -/

/-- Task statuses (`models.TaskStatus*`). -/
inductive TaskStatus where
  | created
  | matching
  | dispatched
  | inProgress
  | completed
  | failed
deriving DecidableEq, Repr

/-- Model of `models.Task` — the fields the handler, dispatcher and matchmaker read
or write. Payloads, timestamps and the deadline are irrelevant to the
claims and omitted; `output_status` keeps the wire strings ("success",
"partial", "error", or empty). -/
structure Task where
  id : Nat
  requesterAgentID : Nat
  workerAgentID : Option Nat
  capabilityRequired : String
  status : TaskStatus
  budget : Int
  actualCost : Option Int
  platformFee : Option Int
  outputStatus : String
  retryCount : Nat
deriving DecidableEq, Repr

/-- Model of `models.Agent` — identity, owning account, role, availability and the
`capabilities_offered` JSONB map (capability → quoted price); `none` models
SQL NULL. The float statistics fields only feed the score-based sort and
are omitted (the sort is treated as an arbitrary permutation). -/
structure Agent where
  id : Nat
  accountID : Nat
  role : String
  availability : String
  capabilitiesOffered : Option (List (String × Int))
deriving DecidableEq, Repr

/-- Model of `AgentRepo.GetByID`: first agent row with the given id. -/
def findAgent : List Agent → Nat → Option Agent
  | [], _ => none
  | a :: rest, id => if a.id = id then some a else findAgent rest id

/-- Model of `TaskHandler.resolveAccountID` (also `Dispatcher.resolveAccountID`):
look the agent up and return its owning account id. -/
def resolveAccountID (agents : List Agent) (agentID : Nat) : Option Nat :=
  match findAgent agents agentID with
  | none => none
  | some a => some a.accountID

/-- The JSON body of `POST /v1/tasks/.../result` (`taskResultRequest`).
`output_payload` never influences control flow (output validation is soft)
and is omitted. A body that omits `output_status` decodes to the empty
string, and one that omits `actual_cost` decodes to `0`. -/
structure TaskResultRequest where
  outputStatus : String
  actualCost : Int
deriving DecidableEq, Repr

/-- The HTTP outcome of `SubmitResult`, one constructor per exit path. -/
inductive SubmitOutcome where
  | badRequest
  | notFound
  | conflict
  | forbidden
  | internalError
  | ok (finalStatus : TaskStatus)
deriving DecidableEq, Repr

/-- Model of `TaskHandler.SubmitResult` — the worker callback. In order: 404 when
the task id is unknown; 409 when the task is in neither `in_progress` nor
`dispatched`; 403 when the caller is missing, no worker is assigned, or the
caller is not the assigned worker; empty `output_status` defaults to
"success"; then for success/partial the effective cost is `actual_cost`
when positive, else the budget, and `SettleTask` runs; for "error" the
budget is refunded; any other status is a 400. The task row is persisted
only on the 200 paths (errors roll the transaction back / return before the
update). Returns (outcome, persisted task row, escrow state). -/
def submitResult (taskOpt : Option Task) (callingAgent : Option Agent)
    (req : TaskResultRequest) (agents : List Agent) (es : EscrowState) :
    SubmitOutcome × Option Task × EscrowState :=
  match taskOpt with
  | none => (.notFound, none, es)
  | some task =>
    if task.status ≠ .inProgress ∧ task.status ≠ .dispatched then
      (.conflict, some task, es)
    else
      match callingAgent, task.workerAgentID with
      | none, _ => (.forbidden, some task, es)
      | some _, none => (.forbidden, some task, es)
      | some ag, some wid =>
        if ag.id ≠ wid then (.forbidden, some task, es)
        else
          let outputStatus :=
            if req.outputStatus = "" then "success" else req.outputStatus
          match resolveAccountID agents task.requesterAgentID with
          | none => (.internalError, some task, es)
          | some requesterAccount =>
            if outputStatus = "success" ∨ outputStatus = "partial" then
              match resolveAccountID agents wid with
              | none => (.internalError, some task, es)
              | some workerAccount =>
                let actualCost :=
                  if req.actualCost ≤ 0 then task.budget else req.actualCost
                let platformFee := Int.tdiv (actualCost * 10) 100
                let task2 := { task with
                  outputStatus := outputStatus
                  actualCost := some req.actualCost
                  platformFee := some platformFee
                  status := .completed }
                match settleTask es task.id requesterAccount workerAccount
                    task.budget actualCost with
                | .error _ => (.internalError, some task, es)
                | .ok es2 => (.ok .completed, some task2, es2)
            else if outputStatus = "error" then
              let task2 := { task with
                outputStatus := outputStatus
                actualCost := some req.actualCost
                status := .failed }
              match refundFailed es task.id requesterAccount task.budget with
              | .error _ => (.internalError, some task, es)
              | .ok es2 => (.ok .failed, some task2, es2)
            else (.badRequest, some task, es)

/-- Model of `TaskHandler.GetTask` (GET /v1/tasks/...): 404 when the task does not
exist, otherwise 200 with the full task row. The authenticated caller's
account is available from the middleware context but is never inspected by
the handler. Returns (HTTP status, body). -/
def getTask (callerAccountID : Nat) (taskOpt : Option Task) :
    Nat × Option Task :=
  match taskOpt with
  | none => (404, none)
  | some t => (200, some t)

/-! ## Matchmaker -/

/-- An `accounts` row as the worker-pool queries see it. -/
structure AccountRow where
  id : Nat
  isSystemAccount : Bool
deriving DecidableEq, Repr

/-- Model of `SELECT ... FROM accounts WHERE id = ...`: first matching row. -/
def findAccount : List AccountRow → Nat → Option AccountRow
  | [], _ => none
  | a :: rest, id => if a.id = id then some a else findAccount rest id

/-- Model of `defaultPriceByCapability` (a Go map; a missing key yields 0). -/
def defaultPriceByCapability (capability : String) : Int :=
  if capability = "Research" then 8
  else if capability = "Summarize" then 3
  else if capability = "Data Extraction" then 5
  else 0

/-- JSONB object key lookup (first match). -/
def lookupCap : List (String × Int) → String → Option Int
  | [], _ => none
  | (k, v) :: rest, c => if k = c then some v else lookupCap rest c

/-- Model of `getPricingPerTask`: the price quoted for the capability in
`capabilities_offered`, with the default price when the map is NULL/empty,
the key is absent, or the quoted price is not positive. -/
def getPricingPerTask (capabilitiesOffered : Option (List (String × Int)))
    (capability : String) : Int :=
  match capabilitiesOffered with
  | none => defaultPriceByCapability capability
  | some m =>
    match lookupCap m capability with
    | some p => if p > 0 then p else defaultPriceByCapability capability
    | none => defaultPriceByCapability capability

/-- Model of `AgentRepo.FindAvailableWorkers`: `agents INNER JOIN accounts` with
`is_system_account = FALSE` (`listAgentsWhere`), `role IN ('worker',
'both')`, `availability = 'online'`, and `capabilities_offered IS NULL OR
capabilities_offered ? capability` (JSONB has-key). -/
def findAvailableWorkers (agents : List Agent) (accounts : List AccountRow)
    (capability : String) : List Agent :=
  agents.filter (fun ag =>
    (match findAccount accounts ag.accountID with
     | some ac => !ac.isSystemAccount
     | none => false) &&
    (ag.role = "worker" || ag.role = "both") &&
    (ag.availability = "online") &&
    (match ag.capabilitiesOffered with
     | none => true
     | some m => (lookupCap m capability).isSome))

/-- A matchmaker candidate (`workerCandidate`): the agent and its quoted
price. The float scoring fields are omitted; they only affect ordering. -/
structure WorkerCandidate where
  agent : Agent
  pricingPerTask : Int
deriving DecidableEq, Repr

/-- Model of `buildCandidates`: drop the excluded agent, quote each remaining
worker's price, and drop candidates whose price exceeds the task budget. -/
def buildCandidates (workers : List Agent) (task : Task) (excludeID : Nat) :
    List WorkerCandidate :=
  match workers with
  | [] => []
  | ag :: rest =>
    if ag.id = excludeID then buildCandidates rest task excludeID
    else
      let price := getPricingPerTask ag.capabilitiesOffered
        task.capabilityRequired
      if price > task.budget then buildCandidates rest task excludeID
      else ⟨ag, price⟩ :: buildCandidates rest task excludeID

/-! ## Dispatcher -/

/-- Constant `maxRetries` from the dispatcher. -/
def maxRetries : Nat := 2

/-- The outcome of one outbound dispatch HTTP POST. -/
inductive HTTPResult where
  | response (statusCode : Nat)
  | netError
deriving DecidableEq, Repr

/-- The environment the dispatcher runs against: whether `FindBestWorker`
returns a worker, the HTTP result of the n-th dispatch attempt, and whether
`FindFallbacks` returns a worker at a given retry round. -/
structure DispatchEnv where
  bestWorker : Bool
  http : Nat → HTTPResult
  fallbackWorker : Nat → Bool

/-- The observable result of the dispatch recursion: the final task row,
the escrow state, the index after the last consumed HTTP attempt, and
whether a deadline watcher was scheduled. -/
structure DispatchResult where
  task : Task
  escrow : EscrowState
  attempts : Nat
  watcherScheduled : Bool
deriving Repr

/-- Model of `Dispatcher.refundAndFail`: mark the task failed with
`output_status = error`, then refund the full budget to the requester's
account in its own transaction; a failing refund transaction rolls back but
the task stays failed. -/
def refundAndFail (agents : List Agent) (task : Task) (es : EscrowState) :
    Task × EscrowState :=
  let task2 := { task with status := .failed, outputStatus := "error" }
  match resolveAccountID agents task.requesterAgentID with
  | none => (task2, es)
  | some reqAcc =>
    match refundFailed es task.id reqAcc task.budget with
    | .ok es2 => (task2, es2)
    | .error _ => (task2, es)

mutual

/-- Model of `Dispatcher.dispatchToWorker`: record `dispatched`, POST to the worker
(attempt `n`); on a response with status exactly 200 advance to
`in_progress` and schedule the deadline watcher; on any other status code
or a network error fall through to `dispatchWithFallback`. Worker identity
and deadline recording do not affect the claims and are omitted. -/
def dispatchToWorker (env : DispatchEnv) (agents : List Agent) (task : Task)
    (es : EscrowState) (n : Nat) : DispatchResult :=
  let task1 := { task with status := .dispatched }
  match env.http n with
  | .netError => dispatchWithFallback env agents task1 es (n + 1)
  | .response code =>
    if code ≠ 200 then dispatchWithFallback env agents task1 es (n + 1)
    else ⟨{ task1 with status := .inProgress }, es, n + 1, true⟩
termination_by 2 * (maxRetries + 1 - task.retryCount) + 1
decreasing_by
  all_goals simp_wf
  all_goals first
  | omega
  | (simp only [maxRetries] at *; omega)

/-- Model of `Dispatcher.dispatchWithFallback`: increment `retry_count`; when it
exceeds `maxRetries`, refund and fail; otherwise go back to `matching`,
ask for fallbacks and dispatch to the first one, refunding and failing when
none is available. -/
def dispatchWithFallback (env : DispatchEnv) (agents : List Agent)
    (task : Task) (es : EscrowState) (n : Nat) : DispatchResult :=
  let task1 := { task with retryCount := task.retryCount + 1 }
  if task1.retryCount > maxRetries then
    let p := refundAndFail agents task1 es
    ⟨p.1, p.2, n, false⟩
  else
    let task2 := { task1 with status := .matching }
    if env.fallbackWorker task2.retryCount then
      dispatchToWorker env agents task2 es n
    else
      let p := refundAndFail agents task2 es
      ⟨p.1, p.2, n, false⟩
termination_by 2 * (maxRetries + 1 - task.retryCount)
decreasing_by
  all_goals simp_wf
  all_goals first
  | omega
  | (simp only [maxRetries] at *; omega)

end

/-- Operation `Dispatcher.failNoWorker` marks the task failed and refunds. -/
def failNoWorker (agents : List Agent) (task : Task) (es : EscrowState) :
    Task × EscrowState :=
  refundAndFail agents task es

/-- Model of `Dispatcher.DispatchTask`: ask the matchmaker for the best worker; when
none is available, fail and refund; otherwise dispatch to it (attempt 0). -/
def dispatchTask (env : DispatchEnv) (agents : List Agent) (task : Task)
    (es : EscrowState) : DispatchResult :=
  if env.bestWorker then dispatchToWorker env agents task es 0
  else
    let p := failNoWorker agents task es
    ⟨p.1, p.2, 0, false⟩

theorem balancesSum_nil : balancesSum [] = 0 := rfl

theorem balancesSum_cons (k : Nat) (v : Int) (rest : List (Nat × Int)) :
    balancesSum ((k, v) :: rest) = v + balancesSum rest := by
  simp [balancesSum]

/-- Characterization of a successful `AddCredits` on an existing account:
the new balance is `b + amt`, the table total grows by `amt`, and every
other account's row is untouched. -/
theorem addCredits_spec (bals : List (Nat × Int)) (id : Nat) (amt b : Int)
    (h : getBalance bals id = some b) :
    ∃ bals2, addCredits bals id amt = some (bals2, b + amt) ∧
      balancesSum bals2 = balancesSum bals + amt ∧
      getBalance bals2 id = some (b + amt) ∧
      ∀ j, j ≠ id → getBalance bals2 j = getBalance bals j := by
  induction bals with
  | nil => simp [getBalance] at h
  | cons hd rest ih =>
    obtain ⟨k, v⟩ := hd
    by_cases hk : k = id
    · subst hk
      have hb : v = b := by simpa [getBalance] using h
      subst hb
      refine ⟨(k, v + amt) :: rest, ?_, ?_, ?_, ?_⟩
      · simp [addCredits]
      · simp [balancesSum_cons]; ring
      · simp [getBalance]
      · intro j hj
        have hkj : k ≠ j := fun e => hj e.symm
        simp [getBalance, hkj]
    · simp only [getBalance, if_neg hk] at h
      obtain ⟨rest2, heq, hsum, hget, hother⟩ := ih h
      refine ⟨(k, v) :: rest2, ?_, ?_, ?_, ?_⟩
      · simp [addCredits, hk, heq]
      · simp [balancesSum_cons, hsum]; ring
      · simp [getBalance, hk, hget]
      · intro j hj
        by_cases hkj : k = j
        · subst hkj; simp [getBalance]
        · simp [getBalance, hkj, hother j hj]

/-- Characterization of a successful `DeductCredits` (the conditional
`credit_balance >= $1` update) on an existing account with sufficient
balance. -/
theorem deductCredits_spec (bals : List (Nat × Int)) (id : Nat) (amt b : Int)
    (h : getBalance bals id = some b) (hle : amt ≤ b) :
    ∃ bals2, deductCredits bals id amt = some (bals2, b - amt) ∧
      balancesSum bals2 = balancesSum bals - amt ∧
      getBalance bals2 id = some (b - amt) ∧
      ∀ j, j ≠ id → getBalance bals2 j = getBalance bals j := by
  induction bals with
  | nil => simp [getBalance] at h
  | cons hd rest ih =>
    obtain ⟨k, v⟩ := hd
    by_cases hk : k = id
    · subst hk
      have hb : v = b := by simpa [getBalance] using h
      subst hb
      refine ⟨(k, v - amt) :: rest, ?_, ?_, ?_, ?_⟩
      · simp [deductCredits, hle]
      · simp [balancesSum_cons]; ring
      · simp [getBalance]
      · intro j hj
        have hkj : k ≠ j := fun e => hj e.symm
        simp [getBalance, hkj]
    · simp only [getBalance, if_neg hk] at h
      obtain ⟨rest2, heq, hsum, hget, hother⟩ := ih h
      refine ⟨(k, v) :: rest2, ?_, ?_, ?_, ?_⟩
      · simp [deductCredits, hk, heq]
      · simp [balancesSum_cons, hsum]; ring
      · simp [getBalance, hk, hget]
      · intro j hj
        by_cases hkj : k = j
        · subst hkj; simp [getBalance]
        · simp [getBalance, hkj, hother j hj]

/-- Updating one existing row keeps every account's presence unchanged. -/
theorem isSome_of_update (bals bals2 : List (Nat × Int)) (id : Nat) (b c : Int)
    (h1 : getBalance bals id = some b) (h2 : getBalance bals2 id = some c)
    (h3 : ∀ j, j ≠ id → getBalance bals2 j = getBalance bals j) :
    ∀ j, (getBalance bals2 j).isSome = (getBalance bals j).isSome := by
  intro j
  by_cases hj : j = id
  · subst hj; rw [h1, h2]; rfl
  · rw [h3 j hj]

/-- Characterization of a successful `LockCredits`: with balance `b ≥ amount`
the lock succeeds, deducts `amount`, appends exactly one `escrow_lock` entry,
and touches no other account. -/
theorem lockCredits_spec (s : EscrowState) (a t : Nat) (amount b : Int)
    (h : getBalance s.balances a = some b) (hle : amount ≤ b) :
    ∃ bals2, lockCredits s a t amount =
        .ok ⟨bals2, s.ledger ++ [⟨a, some t, .escrowLock, amount, b - amount⟩]⟩ ∧
      balancesSum bals2 = balancesSum s.balances - amount ∧
      getBalance bals2 a = some (b - amount) ∧
      ∀ j, j ≠ a → getBalance bals2 j = getBalance s.balances j := by
  obtain ⟨bals2, heq, hsum, hget, hother⟩ :=
    deductCredits_spec s.balances a amount b h hle
  refine ⟨bals2, ?_, hsum, hget, hother⟩
  simp only [lockCredits, h]
  rw [if_neg (by omega)]
  simp [heq]

/-- Characterization of a successful `SettleError`/`RefundFailed` with a
positive budget and an existing requester: the full budget comes back with a
single `refund` entry. -/
theorem settleError_spec (s : EscrowState) (t r : Nat) (budget rb : Int)
    (h : getBalance s.balances r = some rb) (hpos : 0 < budget) :
    ∃ bals2, settleError s t r budget =
        .ok ⟨bals2, s.ledger ++ [⟨r, some t, .refund, budget, rb + budget⟩]⟩ ∧
      balancesSum bals2 = balancesSum s.balances + budget ∧
      getBalance bals2 r = some (rb + budget) ∧
      ∀ j, j ≠ r → getBalance bals2 j = getBalance s.balances j := by
  obtain ⟨bals2, heq, hsum, hget, hother⟩ := addCredits_spec s.balances r budget rb h
  refine ⟨bals2, ?_, hsum, hget, hother⟩
  simp only [settleError, h]
  rw [if_neg (by omega)]
  simp [h, heq]

/-- When the requester, worker and platform rows all exist, `SettleTask`
succeeds and pays out `workerEarning + platformFee + remainder =
actualCost + max (budget - actualCost) 0 = max budget actualCost` in
total. -/
theorem settleTask_total (s : EscrowState) (t r w : Nat) (budget actualCost : Int)
    (hr : (getBalance s.balances r).isSome)
    (hw : (getBalance s.balances w).isSome)
    (hp : (getBalance s.balances SystemPlatformAccountID).isSome) :
    ∃ s2, settleTask s t r w budget actualCost = .ok s2 ∧
      totalBalance s2 = totalBalance s + max budget actualCost := by
  obtain ⟨rb, hrb⟩ := Option.isSome_iff_exists.mp hr
  obtain ⟨wb, hwb⟩ := Option.isSome_iff_exists.mp hw
  obtain ⟨pb, hpb⟩ := Option.isSome_iff_exists.mp hp
  obtain ⟨bals1, hadd1, hsum1, hget1, hoth1⟩ :=
    addCredits_spec s.balances w (actualCost - Int.tdiv (actualCost * 10) 100)
      wb hwb
  have hp1 : ∃ pb1, getBalance bals1 SystemPlatformAccountID = some pb1 := by
    by_cases hpw : SystemPlatformAccountID = w
    · exact ⟨_, by rw [hpw, hget1]⟩
    · exact ⟨pb, by rw [hoth1 _ hpw, hpb]⟩
  obtain ⟨pb1, hpb1⟩ := hp1
  obtain ⟨bals2, hadd2, hsum2, hget2, hoth2⟩ :=
    addCredits_spec bals1 SystemPlatformAccountID (Int.tdiv (actualCost * 10) 100)
      pb1 hpb1
  by_cases hgt : budget - actualCost > 0
  · have hrem : (if budget - actualCost < 0 then 0 else budget - actualCost) =
        budget - actualCost := if_neg (by omega)
    have hr2 : ∃ rb2, getBalance bals2 r = some rb2 := by
      by_cases hrp : r = SystemPlatformAccountID
      · exact ⟨_, by rw [hrp, hget2]⟩
      · rw [hoth2 _ hrp]
        by_cases hrw : r = w
        · exact ⟨_, by rw [hrw, hget1]⟩
        · exact ⟨rb, by rw [hoth1 _ hrw, hrb]⟩
    obtain ⟨rb2, hrb2⟩ := hr2
    obtain ⟨bals3, hadd3, hsum3, hget3, hoth3⟩ :=
      addCredits_spec bals2 r (budget - actualCost) rb2 hrb2
    simp only [settleTask, hrb, hwb, hpb, hadd1, hadd2, hrem, if_pos hgt,
      hadd3]
    refine ⟨_, rfl, ?_⟩
    simp only [totalBalance]
    rw [max_eq_left (by omega : actualCost ≤ budget)]
    linarith [hsum1, hsum2, hsum3]
  · have hcond : ¬((if budget - actualCost < 0 then (0 : Int)
        else budget - actualCost) > 0) := by
      split_ifs <;> omega
    simp only [settleTask, hrb, hwb, hpb, hadd1, hadd2, if_neg hcond]
    refine ⟨_, rfl, ?_⟩
    simp only [totalBalance]
    rw [max_eq_right (by omega : budget ≤ actualCost)]
    linarith [hsum1, hsum2]

/-- With `actualCost ≤ budget` the settlement pays out exactly `budget`. -/
theorem settleTask_sum (s : EscrowState) (t r w : Nat) (budget actualCost : Int)
    (hr : (getBalance s.balances r).isSome)
    (hw : (getBalance s.balances w).isSome)
    (hp : (getBalance s.balances SystemPlatformAccountID).isSome)
    (hc : actualCost ≤ budget) :
    ∃ s2, settleTask s t r w budget actualCost = .ok s2 ∧
      totalBalance s2 = totalBalance s + budget := by
  obtain ⟨s2, h1, h2⟩ := settleTask_total s t r w budget actualCost hr hw hp
  exact ⟨s2, h1, by rw [h2, max_eq_left hc]⟩

example :
    lockCredits ⟨[(10, 100), (20, 0), (1, 0)], []⟩ 10 7 10 =
      .ok ⟨[(10, 90), (20, 0), (1, 0)],
        [⟨10, some 7, .escrowLock, 10, 90⟩]⟩ := by rfl

example :
    totalBalance (applyOps ⟨[(10, 100), (20, 0), (1, 0)], []⟩
      [.lock 10 7 10, .settle 7 10 20 10 20]) = 110 := by rfl

theorem applyOps_append (s : EscrowState) (a b : List EscrowOp) :
    applyOps s (a ++ b) = applyOps (applyOps s a) b :=
  List.foldl_append _ _ _ _

/-- One well-formed lifecycle conserves the sum of balances. -/
theorem lifecycle_conserves (s : EscrowState) (l : Lifecycle)
    (h : lifecycleOKb s l = true) :
    totalBalance (applyOps s (lifecycleOps l)) = totalBalance s := by
  obtain ⟨tid, rid, budget, outcome⟩ := l
  simp only [lifecycleOKb, Bool.and_eq_true, decide_eq_true_eq] at h
  cases hrb : getBalance s.balances rid with
  | none => rw [hrb] at h; simp at h
  | some rb =>
    rw [hrb] at h
    cases outcome with
    | settle w c =>
      simp only [decide_eq_true_eq, Bool.and_eq_true] at h
      obtain ⟨⟨hb1, hble⟩, ⟨⟨hc1, hcb⟩, hwsome⟩, hpsome⟩ := h
      obtain ⟨bals1, hlock, hsum1, hget1, hoth1⟩ :=
        lockCredits_spec s rid tid budget rb hrb hble
      have hpres : ∀ j, (getBalance bals1 j).isSome =
          (getBalance s.balances j).isSome :=
        isSome_of_update s.balances bals1 rid rb (rb - budget) hrb hget1 hoth1
      set s1 : EscrowState := ⟨bals1,
        s.ledger ++ [⟨rid, some tid, .escrowLock, budget, rb - budget⟩]⟩
      have hr1 : (getBalance s1.balances rid).isSome := by
        simp [s1, hget1]
      have hw1 : (getBalance s1.balances w).isSome := by
        simp only [s1]; rw [hpres w]; exact hwsome
      have hp1 : (getBalance s1.balances SystemPlatformAccountID).isSome := by
        simp only [s1]; rw [hpres _]; exact hpsome
      obtain ⟨s2, hsettle, hsum2⟩ :=
        settleTask_sum s1 tid rid w budget c hr1 hw1 hp1 hcb
      simp only [lifecycleOps, applyOps, List.foldl, applyOp, hlock, hsettle]
      have hts1 : totalBalance s1 = totalBalance s - budget := by
        simp only [totalBalance, s1]; exact hsum1
      rw [hsum2, hts1]; ring
    | refund =>
      simp only [decide_eq_true_eq, Bool.and_eq_true] at h
      obtain ⟨⟨hb1, hble⟩, -⟩ := h
      obtain ⟨bals1, hlock, hsum1, hget1, hoth1⟩ :=
        lockCredits_spec s rid tid budget rb hrb hble
      set s1 : EscrowState := ⟨bals1,
        s.ledger ++ [⟨rid, some tid, .escrowLock, budget, rb - budget⟩]⟩
      obtain ⟨bals2, hrefund, hsum2, hget2, hoth2⟩ :=
        settleError_spec s1 tid rid budget (rb - budget) hget1 (by omega)
      simp only [lifecycleOps, applyOps, List.foldl, applyOp, hlock,
        refundFailed, hrefund]
      simp only [totalBalance] at hsum1 ⊢
      simp only [s1] at hsum2
      rw [hsum2, hsum1]; ring

/-- C1 (amended): credit conservation holds for sequences of complete task
lifecycles — each task locks its budget (with sufficient requester balance)
and is then settled once with `1 ≤ actual_cost ≤ budget` over existing
accounts, or refunded once in full. The sum of all account balances after
such a sequence equals the sum before. (As literally stated over arbitrary
amounts the claim is false — see `conservation_counterexample`: a
settlement whose actual cost exceeds the locked budget credits more than
was debited.) -/
theorem ledger_conservation (ls : List Lifecycle) (s : EscrowState)
    (h : seqOKb s ls = true) :
    totalBalance (applyOps s (ls.map lifecycleOps).flatten) = totalBalance s := by
  induction ls generalizing s with
  | nil => simp [applyOps, seqOKb]
  | cons l rest ih =>
    simp only [seqOKb, Bool.and_eq_true] at h
    obtain ⟨h1, h2⟩ := h
    simp only [List.map_cons, List.flatten_cons, applyOps_append]
    rw [ih (applyOps s (lifecycleOps l)) h2, lifecycle_conserves s l h1]

/-! ## Claim theorems -/

/-- C2: Settlement split — for a success/partial settlement with budget `B`
and actual cost `C`, `1 ≤ C ≤ B`, over pairwise-distinct requester, worker
and platform accounts, `SettleTask` credits the worker account exactly
`C - C*10/100`, the platform account exactly `C*10/100`, and the requester
account exactly `B - C`; the ledger gains a `task_earning` entry and a
`platform_fee` entry, plus an `escrow_release` entry exactly when
`B - C > 0` (none when `B = C`). Here `/` is `Int` floor division, which
for these non-negative operands equals Go's truncating division and the
spec's `floor(C·10/100)`. -/
theorem settleTask_split (s : EscrowState) (t r w : Nat)
    (budget actualCost rb wb pb : Int)
    (hrb : getBalance s.balances r = some rb)
    (hwb : getBalance s.balances w = some wb)
    (hpb : getBalance s.balances SystemPlatformAccountID = some pb)
    (hrw : r ≠ w) (hrp : r ≠ SystemPlatformAccountID)
    (hwp : w ≠ SystemPlatformAccountID)
    (h1 : 1 ≤ actualCost) (h2 : actualCost ≤ budget) :
    ∃ s2, settleTask s t r w budget actualCost = .ok s2 ∧
      getBalance s2.balances w =
        some (wb + (actualCost - actualCost * 10 / 100)) ∧
      getBalance s2.balances SystemPlatformAccountID =
        some (pb + actualCost * 10 / 100) ∧
      getBalance s2.balances r = some (rb + (budget - actualCost)) ∧
      s2.ledger = s.ledger ++
        [⟨w, some t, .taskEarning, actualCost - actualCost * 10 / 100,
           wb + (actualCost - actualCost * 10 / 100)⟩,
         ⟨SystemPlatformAccountID, some t, .platformFee,
           actualCost * 10 / 100, pb + actualCost * 10 / 100⟩] ++
        (if budget - actualCost > 0 then
           [⟨r, some t, .escrowRelease, budget - actualCost,
              rb + (budget - actualCost)⟩]
         else []) := by
  have htd : Int.tdiv (actualCost * 10) 100 = actualCost * 10 / 100 :=
    Int.tdiv_eq_ediv (by omega) (by omega)
  simp only [← htd]
  obtain ⟨bals1, hadd1, hsum1, hget1, hoth1⟩ :=
    addCredits_spec s.balances w (actualCost - Int.tdiv (actualCost * 10) 100)
      wb hwb
  have hpb1 : getBalance bals1 SystemPlatformAccountID = some pb := by
    rw [hoth1 _ (Ne.symm hwp), hpb]
  obtain ⟨bals2, hadd2, hsum2, hget2, hoth2⟩ :=
    addCredits_spec bals1 SystemPlatformAccountID
      (Int.tdiv (actualCost * 10) 100) pb hpb1
  have hrb2 : getBalance bals2 r = some rb := by
    rw [hoth2 _ hrp, hoth1 _ hrw, hrb]
  have hwb2 : getBalance bals2 w =
      some (wb + (actualCost - Int.tdiv (actualCost * 10) 100)) := by
    rw [hoth2 _ hwp, hget1]
  by_cases hgt : budget - actualCost > 0
  · have hrem : (if budget - actualCost < 0 then 0 else budget - actualCost) =
        budget - actualCost := if_neg (by omega)
    obtain ⟨bals3, hadd3, hsum3, hget3, hoth3⟩ :=
      addCredits_spec bals2 r (budget - actualCost) rb hrb2
    simp only [settleTask, hrb, hwb, hpb, hadd1, hadd2, hrem, if_pos hgt,
      hadd3]
    refine ⟨_, rfl, ?_, ?_, ?_, ?_⟩
    · rw [hoth3 _ (Ne.symm hrw), hwb2]
    · rw [hoth3 _ (Ne.symm hrp), hget2]
    · exact hget3
    · simp [if_pos hgt, List.append_assoc]
  · have hbc : budget = actualCost := by omega
    have hcond : ¬((if budget - actualCost < 0 then (0 : Int)
        else budget - actualCost) > 0) := by
      split_ifs <;> omega
    simp only [settleTask, hrb, hwb, hpb, hadd1, hadd2, if_neg hcond]
    refine ⟨_, rfl, ?_, ?_, ?_, ?_⟩
    · exact hwb2
    · exact hget2
    · rw [hrb2, hbc]; norm_num
    · simp [if_neg hgt, List.append_assoc]
      omega

/-- Witness for `settleTask_split`: budget 100, actual cost 80, requester
account 3, worker account 8, platform account 1 — worker +72, platform +8,
requester +20 (the spec's own concrete scenario). -/
theorem settleTask_split_witness :
    ∃ s2, settleTask ⟨[(3, 900), (8, 0), (1, 0)], []⟩ 5 3 8 100 80 = .ok s2 ∧
      getBalance s2.balances 8 = some (0 + (80 - 80 * 10 / 100)) ∧
      getBalance s2.balances SystemPlatformAccountID =
        some (0 + 80 * 10 / 100) ∧
      getBalance s2.balances 3 = some (900 + (100 - 80)) ∧
      s2.ledger = ([] : List CreditLedgerEntry) ++
        [⟨8, some 5, .taskEarning, 80 - 80 * 10 / 100,
           0 + (80 - 80 * 10 / 100)⟩,
         ⟨SystemPlatformAccountID, some 5, .platformFee, 80 * 10 / 100,
           0 + 80 * 10 / 100⟩] ++
        (if (100 : Int) - 80 > 0 then
           [⟨3, some 5, .escrowRelease, 100 - 80, 900 + (100 - 80)⟩]
         else []) :=
  settleTask_split ⟨[(3, 900), (8, 0), (1, 0)], []⟩ 5 3 8 100 80 900 0 0
    (by rfl) (by rfl) (by rfl) (by decide) (by decide) (by decide)
    (by decide) (by decide)

/-- C1 counterexample: the claim as stated quantifies over arbitrary
amounts. Locking 10 credits for task 7 and then settling it with
`actual_cost = 20 > budget = 10` pays out 20 (worker 18, platform 2), so
the closed system's balance total moves from 100 to 110: the settle
operation credits 20 but debits nothing beyond the 10 locked. -/
theorem conservation_counterexample :
    totalBalance (applyOps ⟨[(10, 100), (20, 0), (1, 0)], []⟩
        [.lock 10 7 10, .settle 7 10 20 10 20]) ≠
      totalBalance ⟨[(10, 100), (20, 0), (1, 0)], []⟩ := by decide

/-- Witness for `ledger_conservation`: requester account 10 (balance 100),
worker account 20, platform account 1; task 7 locks 10 and settles at cost
8, task 8 locks 5 and is refunded; the total stays 100. -/
theorem ledger_conservation_witness :
    seqOKb ⟨[(10, 100), (20, 0), (1, 0)], []⟩
        [⟨7, 10, 10, .settle 20 8⟩, ⟨8, 10, 5, .refund⟩] = true ∧
    totalBalance (applyOps ⟨[(10, 100), (20, 0), (1, 0)], []⟩
        (([⟨7, 10, 10, .settle 20 8⟩,
           ⟨8, 10, 5, .refund⟩] : List Lifecycle).map lifecycleOps).flatten) =
      totalBalance ⟨[(10, 100), (20, 0), (1, 0)], []⟩ :=
  ⟨by decide, ledger_conservation _ _ (by decide)⟩

/-- C4: No negative balances — `LockCredits` on an account with balance `b`
fails with `InsufficientFunds` when `b < amount`, in which case the
transaction rolls back: nothing is deducted and no ledger entry is
appended; when `b ≥ amount` the new balance `b - amount` is still ≥ 0, so
no lock ever drives a balance below zero. -/
theorem lockCredits_no_negative (s : EscrowState) (a t : Nat) (amount b : Int)
    (hb : getBalance s.balances a = some b) :
    (b < amount →
      lockCredits s a t amount = .error .insufficientFunds ∧
      applyOp s (.lock a t amount) = s) ∧
    (amount ≤ b →
      ∃ bals2, lockCredits s a t amount =
          .ok ⟨bals2,
            s.ledger ++ [⟨a, some t, .escrowLock, amount, b - amount⟩]⟩ ∧
        getBalance bals2 a = some (b - amount) ∧ 0 ≤ b - amount) := by
  constructor
  · intro hlt
    have herr : lockCredits s a t amount = .error .insufficientFunds := by
      simp only [lockCredits, hb, if_pos hlt]
    exact ⟨herr, by simp only [applyOp, herr]⟩
  · intro hle
    obtain ⟨bals2, heq, hsum, hget, hoth⟩ :=
      lockCredits_spec s a t amount b hb hle
    exact ⟨bals2, heq, hget, by omega⟩

/-- Witness for `lockCredits_no_negative`: account 4 with balance 5 —
locking 7 fails with `InsufficientFunds` and changes nothing; locking 3
leaves balance 2 ≥ 0. -/
theorem lockCredits_no_negative_witness :
    ((5 : Int) < 7 ∧
      lockCredits ⟨[(4, 5)], []⟩ 4 9 7 = .error .insufficientFunds ∧
      applyOp ⟨[(4, 5)], []⟩ (.lock 4 9 7) = ⟨[(4, 5)], []⟩) ∧
    ((3 : Int) ≤ 5 ∧
      ∃ bals2, lockCredits ⟨[(4, 5)], []⟩ 4 9 3 =
          .ok ⟨bals2, [] ++ [⟨4, some 9, .escrowLock, 3, 5 - 3⟩]⟩ ∧
        getBalance bals2 4 = some (5 - 3) ∧ (0 : Int) ≤ 5 - 3) :=
  ⟨⟨by decide,
    (lockCredits_no_negative ⟨[(4, 5)], []⟩ 4 9 7 5 (by rfl)).1 (by decide)⟩,
   ⟨by decide,
    (lockCredits_no_negative ⟨[(4, 5)], []⟩ 4 9 3 5 (by rfl)).2 (by decide)⟩⟩

/-- C5 counterexample: the dispatchable-state check (409 Conflict) runs
before the caller-identity check, so a callback on a `completed` task by
agent 66 — not the assigned worker 77 — fails with Conflict, not
Forbidden (the task row and the escrow state are still untouched). -/
theorem callback_auth_counterexample :
    (66 : Nat) ≠ 77 ∧
    SubmitOutcome.conflict ≠ SubmitOutcome.forbidden ∧
    submitResult
        (some ⟨5, 9, some 77, "summarize", .completed, 10, none, none,
          "success", 0⟩)
        (some ⟨66, 8, "worker", "online", none⟩) ⟨"success", 3⟩ [] ⟨[], []⟩ =
      (.conflict,
       some ⟨5, 9, some 77, "summarize", .completed, 10, none, none,
         "success", 0⟩,
       ⟨[], []⟩) := by decide

/-- C5 (amended): a result callback whose authenticated caller is not the
task's assigned worker (or where no worker is assigned) never mutates the
task row or the escrow state, and when the task is in a dispatchable state
(`in_progress` or `dispatched`) it fails with 403 Forbidden; on a task in
any other state the 409 Conflict state check fires first. -/
theorem callback_authorization (ag : Agent) (req : TaskResultRequest)
    (agents : List Agent) (es : EscrowState) (task : Task)
    (hnw : ∀ wid, task.workerAgentID = some wid → ag.id ≠ wid) :
    (submitResult (some task) (some ag) req agents es).2.1 = some task ∧
    (submitResult (some task) (some ag) req agents es).2.2 = es ∧
    ((task.status = .inProgress ∨ task.status = .dispatched) →
      (submitResult (some task) (some ag) req agents es).1 = .forbidden) := by
  by_cases hst : task.status ≠ .inProgress ∧ task.status ≠ .dispatched
  · refine ⟨?_, ?_, ?_⟩ <;>
      simp only [submitResult, if_pos hst]
    intro hdisp
    rcases hdisp with h | h <;> simp [h] at hst
  · cases hwa : task.workerAgentID with
    | none =>
      refine ⟨?_, ?_, ?_⟩ <;> simp only [submitResult, if_neg hst, hwa]
      intro _; trivial
    | some wid =>
      have hne : ag.id ≠ wid := hnw wid hwa
      refine ⟨?_, ?_, ?_⟩ <;>
        simp only [submitResult, if_neg hst, hwa, if_pos hne]
      intro _; trivial

/-- Witness for `callback_authorization`: an `in_progress` task assigned to
worker agent 77, called back by agent 66. -/
theorem callback_authorization_witness :
    (submitResult
        (some ⟨5, 9, some 77, "summarize", .inProgress, 10, none, none,
          "", 0⟩)
        (some ⟨66, 8, "worker", "online", none⟩) ⟨"error", 3⟩ [] ⟨[], []⟩).2.1 =
      some ⟨5, 9, some 77, "summarize", .inProgress, 10, none, none, "", 0⟩ ∧
    (submitResult
        (some ⟨5, 9, some 77, "summarize", .inProgress, 10, none, none,
          "", 0⟩)
        (some ⟨66, 8, "worker", "online", none⟩) ⟨"error", 3⟩ [] ⟨[], []⟩).2.2 =
      (⟨[], []⟩ : EscrowState) ∧
    ((TaskStatus.inProgress = TaskStatus.inProgress ∨
        TaskStatus.inProgress = TaskStatus.dispatched) →
      (submitResult
          (some ⟨5, 9, some 77, "summarize", .inProgress, 10, none, none,
            "", 0⟩)
          (some ⟨66, 8, "worker", "online", none⟩) ⟨"error", 3⟩ []
          ⟨[], []⟩).1 = .forbidden) :=
  callback_authorization ⟨66, 8, "worker", "online", none⟩ ⟨"error", 3⟩ []
    ⟨[], []⟩ ⟨5, 9, some 77, "summarize", .inProgress, 10, none, none, "", 0⟩
    (fun wid hw => by have h77 := Option.some.inj hw; subst h77; decide)

/-- C10: a callback body that omits `output_status` (it decodes to the
empty string) is treated exactly as an explicit "success": `SubmitResult`
produces the identical outcome, persisted task row and escrow state as the
same request with `output_status = "success"` — in particular the task is
settled via `SettleTask`, the worker is paid, and the task completes,
exactly as for an explicit success. -/
theorem empty_output_status_is_success (taskOpt : Option Task)
    (agOpt : Option Agent) (req : TaskResultRequest) (agents : List Agent)
    (es : EscrowState) (h : req.outputStatus = "") :
    submitResult taskOpt agOpt req agents es =
      submitResult taskOpt agOpt ⟨"success", req.actualCost⟩ agents es := by
  obtain ⟨os, ac⟩ := req
  simp only at h
  subst h
  rfl

/-- Witness for `empty_output_status_is_success`: a concrete callback with
an omitted output status settles identically to an explicit "success"
(here: in-progress task 5, worker agent 77 on account 8, budget 10, actual
cost 4). -/
theorem empty_output_status_witness :
    submitResult
        (some ⟨5, 9, some 77, "summarize", .inProgress, 10, none, none,
          "", 0⟩)
        (some ⟨77, 8, "worker", "online", none⟩) ⟨"", 4⟩
        [⟨9, 3, "requester", "online", none⟩,
         ⟨77, 8, "worker", "online", none⟩]
        ⟨[(3, 90), (8, 0), (1, 0)], []⟩ =
      submitResult
        (some ⟨5, 9, some 77, "summarize", .inProgress, 10, none, none,
          "", 0⟩)
        (some ⟨77, 8, "worker", "online", none⟩) ⟨"success", 4⟩
        [⟨9, 3, "requester", "online", none⟩,
         ⟨77, 8, "worker", "online", none⟩]
        ⟨[(3, 90), (8, 0), (1, 0)], []⟩ :=
  empty_output_status_is_success _ _ ⟨"", 4⟩ _ _ rfl

/-- C3 failing input (the code does not clamp the effective cost at the
budget): the assigned worker of in-progress task 5 with budget 10 reports
`output_status = success` and `actual_cost = 20`. The handler settles at
effective cost 20: the worker account 8 is credited 18 and the platform 2 —
a payout of 20 > 10 — and the task still completes with
`actual_cost = 20 > budget`; nothing limits the cost to the budget. -/
theorem submitResult_no_clamp :
    (20 : Int) > 10 ∧
    submitResult
        (some ⟨5, 9, some 77, "summarize", .inProgress, 10, none, none,
          "", 0⟩)
        (some ⟨77, 8, "worker", "online", none⟩) ⟨"success", 20⟩
        [⟨9, 3, "requester", "online", none⟩,
         ⟨77, 8, "worker", "online", none⟩]
        ⟨[(3, 90), (8, 0), (1, 0)], []⟩ =
      (.ok .completed,
       some ⟨5, 9, some 77, "summarize", .completed, 10, some 20, some 2,
         "success", 0⟩,
       ⟨[(3, 90), (8, 18), (1, 2)],
        [⟨8, some 5, .taskEarning, 18, 18⟩,
         ⟨1, some 5, .platformFee, 2, 2⟩]⟩) := by decide

/-- C9 failing input: `GetTask` performs no ownership check — the caller's
account id is ignored entirely. Caller account 99, which does not own task
5 (its requester agent 9 belongs to a different account), still receives
200 with the full task row; the second conjunct shows the response is
independent of the caller for every task. -/
theorem getTask_no_scoping :
    getTask 99 (some ⟨5, 9, none, "summarize", .created, 10, none, none,
        "", 0⟩) =
      (200, some ⟨5, 9, none, "summarize", .created, 10, none, none,
        "", 0⟩) ∧
    (∀ caller caller2 taskOpt,
      getTask caller taskOpt = getTask caller2 taskOpt) :=
  ⟨rfl, fun _ _ _ => rfl⟩

/-- C7 counterexample: the dispatcher tests `StatusCode != 200`, not "any
2xx". A 201 Created response — a 2xx status — does not advance the task to
`in_progress`: with no fallback worker available the task goes down the
fallback path and ends `failed`. -/
theorem dispatch_2xx_counterexample :
    (200 ≤ 201 ∧ 201 < 300) ∧
    (dispatchToWorker ⟨true, fun _ => .response 201, fun _ => false⟩ []
        ⟨5, 9, none, "summarize", .matching, 10, none, none, "", 0⟩
        ⟨[(3, 0)], []⟩ 0).task.status = .failed ∧
    (dispatchToWorker ⟨true, fun _ => .response 201, fun _ => false⟩ []
        ⟨5, 9, none, "summarize", .matching, 10, none, none, "", 0⟩
        ⟨[(3, 0)], []⟩ 0).task.status ≠ .inProgress := by
  refine ⟨by omega, ?_, ?_⟩ <;>
    simp [dispatchToWorker, dispatchWithFallback, refundAndFail,
      resolveAccountID, findAgent, maxRetries]

/-- C7 (amended): a dispatch attempt advances the task to `in_progress`
(and schedules the deadline watcher) exactly when the worker's response
status is 200; any other status code — other 2xx codes included — and any
network error send the task down the fallback path
(`dispatchWithFallback`). -/
theorem dispatch_200_only (env : DispatchEnv) (agents : List Agent)
    (task : Task) (es : EscrowState) (n : Nat) :
    (env.http n = .response 200 →
      dispatchToWorker env agents task es n =
        ⟨{ task with status := .inProgress }, es, n + 1, true⟩) ∧
    (env.http n ≠ .response 200 →
      dispatchToWorker env agents task es n =
        dispatchWithFallback env agents { task with status := .dispatched }
          es (n + 1)) := by
  constructor
  · intro h
    rw [dispatchToWorker, h]
    simp
  · intro h
    rw [dispatchToWorker]
    cases henv : env.http n with
    | netError => rfl
    | response code =>
      rw [henv] at h
      have hne : code ≠ 200 := fun hc => h (by rw [hc])
      simp [hne]

/-- Witness for `dispatch_200_only`: a 200 response advances attempt 0 to
`in_progress`; a 503 response hands the same task to the fallback path. -/
theorem dispatch_200_only_witness :
    dispatchToWorker ⟨true, fun _ => .response 200, fun _ => false⟩ []
        ⟨5, 9, none, "summarize", .matching, 10, none, none, "", 0⟩
        ⟨[(3, 0)], []⟩ 0 =
      ⟨⟨5, 9, none, "summarize", .inProgress, 10, none, none, "", 0⟩,
        ⟨[(3, 0)], []⟩, 1, true⟩ ∧
    dispatchToWorker ⟨true, fun _ => .response 503, fun _ => false⟩ []
        ⟨5, 9, none, "summarize", .matching, 10, none, none, "", 0⟩
        ⟨[(3, 0)], []⟩ 0 =
      dispatchWithFallback ⟨true, fun _ => .response 503, fun _ => false⟩ []
        ⟨5, 9, none, "summarize", .dispatched, 10, none, none, "", 0⟩
        ⟨[(3, 0)], []⟩ 1 :=
  ⟨(dispatch_200_only ⟨true, fun _ => .response 200, fun _ => false⟩ []
      ⟨5, 9, none, "summarize", .matching, 10, none, none, "", 0⟩
      ⟨[(3, 0)], []⟩ 0).1 rfl,
   (dispatch_200_only ⟨true, fun _ => .response 503, fun _ => false⟩ []
      ⟨5, 9, none, "summarize", .matching, 10, none, none, "", 0⟩
      ⟨[(3, 0)], []⟩ 0).2 (by decide)⟩

/-- Every candidate built by `buildCandidates` comes from the worker list,
is not the excluded agent, and carries its quoted price, bounded by the
task budget. -/
theorem mem_buildCandidates (ws : List Agent) (task : Task) (ex : Nat)
    (c : WorkerCandidate) (hc : c ∈ buildCandidates ws task ex) :
    c.agent ∈ ws ∧ c.agent.id ≠ ex ∧
    c.pricingPerTask =
      getPricingPerTask c.agent.capabilitiesOffered task.capabilityRequired ∧
    c.pricingPerTask ≤ task.budget := by
  induction ws with
  | nil => simp [buildCandidates] at hc
  | cons ag rest ih =>
    simp only [buildCandidates] at hc
    by_cases hex : ag.id = ex
    · rw [if_pos hex] at hc
      obtain ⟨h1, h2, h3, h4⟩ := ih hc
      exact ⟨List.mem_cons_of_mem _ h1, h2, h3, h4⟩
    · rw [if_neg hex] at hc
      by_cases hpr : getPricingPerTask ag.capabilitiesOffered
          task.capabilityRequired > task.budget
      · rw [if_pos hpr] at hc
        obtain ⟨h1, h2, h3, h4⟩ := ih hc
        exact ⟨List.mem_cons_of_mem _ h1, h2, h3, h4⟩
      · rw [if_neg hpr] at hc
        rcases List.mem_cons.mp hc with hceq | hcrest
        · subst hceq
          refine ⟨List.mem_cons_self _ _, hex, rfl, ?_⟩
          show getPricingPerTask ag.capabilitiesOffered
            task.capabilityRequired ≤ task.budget
          omega
        · obtain ⟨h1, h2, h3, h4⟩ := ih hcrest
          exact ⟨List.mem_cons_of_mem _ h1, h2, h3, h4⟩

/-- Every agent returned by `FindAvailableWorkers` satisfies the SQL
filter: joined to a non-system account, role worker/both, online, and
`capabilities_offered` NULL or containing the capability key. -/
theorem mem_findAvailableWorkers (agents : List Agent)
    (accounts : List AccountRow) (cap : String) (ag : Agent)
    (h : ag ∈ findAvailableWorkers agents accounts cap) :
    ag ∈ agents ∧
    (∃ ac, findAccount accounts ag.accountID = some ac ∧
      ac.isSystemAccount = false) ∧
    (ag.role = "worker" ∨ ag.role = "both") ∧
    ag.availability = "online" ∧
    (ag.capabilitiesOffered = none ∨
      ∃ m, ag.capabilitiesOffered = some m ∧ (lookupCap m cap).isSome) := by
  rw [findAvailableWorkers] at h
  obtain ⟨hmem, hcond⟩ := List.mem_filter.mp h
  simp only [Bool.and_eq_true, Bool.or_eq_true, decide_eq_true_eq] at hcond
  obtain ⟨⟨⟨hacct, hrole⟩, havail⟩, hcaps⟩ := hcond
  refine ⟨hmem, ?_, hrole, havail, ?_⟩
  · cases hfa : findAccount accounts ag.accountID with
    | none => rw [hfa] at hacct; exact absurd hacct (by simp)
    | some ac =>
      rw [hfa] at hacct
      exact ⟨ac, rfl, by simpa using hacct⟩
  · cases hco : ag.capabilitiesOffered with
    | none => exact Or.inl rfl
    | some m =>
      rw [hco] at hcaps
      exact Or.inr ⟨m, rfl, hcaps⟩

/-- C8 counterexample: an online worker agent of a non-system account whose
`capabilities_offered` is NULL passes the repository's
`IS NULL OR has-key` filter and becomes a candidate (at the map-default
price 0) even though its capability map does not contain the requested
capability — it would be selected as the only candidate. -/
theorem matchmaker_null_caps_counterexample :
    buildCandidates
        (findAvailableWorkers [⟨20, 4, "worker", "online", none⟩]
          [⟨4, false⟩] "summarize")
        ⟨5, 9, none, "summarize", .matching, 10, none, none, "", 0⟩ 0 =
      [⟨⟨20, 4, "worker", "online", none⟩, 0⟩] ∧
    (⟨20, 4, "worker", "online", none⟩ : Agent).capabilitiesOffered =
      none := by decide

/-- C8 (amended): every candidate considered by FindBestWorker /
FindFallbacks is an agent with role worker or both, online, owned by a
non-system account, not the excluded agent, priced within the budget, and
whose `capabilities_offered` either contains the requested capability or is
NULL (NULL passes the SQL filter and prices at the default). The
float-weighted `scoreAndSort` only permutes the candidate list, so any
selection from any permutation stays inside this set — no agent outside it
is ever selected. -/
theorem matchmaker_candidate_pool (agents : List Agent)
    (accounts : List AccountRow) (task : Task) (excludeID : Nat)
    (sorted : List WorkerCandidate)
    (hperm : List.Perm sorted (buildCandidates
      (findAvailableWorkers agents accounts task.capabilityRequired)
      task excludeID))
    (c : WorkerCandidate) (hc : c ∈ sorted) :
    (∃ ac, findAccount accounts c.agent.accountID = some ac ∧
      ac.isSystemAccount = false) ∧
    (c.agent.role = "worker" ∨ c.agent.role = "both") ∧
    c.agent.availability = "online" ∧
    (c.agent.capabilitiesOffered = none ∨
      ∃ m, c.agent.capabilitiesOffered = some m ∧
        (lookupCap m task.capabilityRequired).isSome) ∧
    c.agent.id ≠ excludeID ∧
    c.pricingPerTask ≤ task.budget := by
  have hmem := hperm.mem_iff.mp hc
  obtain ⟨hw, hne, hpr, hbd⟩ := mem_buildCandidates _ _ _ _ hmem
  obtain ⟨-, hacct, hrole, havail, hcaps⟩ :=
    mem_findAvailableWorkers _ _ _ _ hw
  exact ⟨hacct, hrole, havail, hcaps, hne, hbd⟩

/-- Witness for `matchmaker_candidate_pool`: one online worker on a
non-system account offering "summarize" at price 3 within budget 10; the
identity permutation selects it and it satisfies every pool condition. -/
theorem matchmaker_candidate_pool_witness :
    (∃ ac, findAccount [⟨4, false⟩]
        (⟨21, 4, "worker", "online", some [("summarize", 3)]⟩ : Agent).accountID =
          some ac ∧ ac.isSystemAccount = false) ∧
    ((⟨21, 4, "worker", "online", some [("summarize", 3)]⟩ : Agent).role =
        "worker" ∨
      (⟨21, 4, "worker", "online", some [("summarize", 3)]⟩ : Agent).role =
        "both") ∧
    (⟨21, 4, "worker", "online", some [("summarize", 3)]⟩ : Agent).availability =
      "online" ∧
    ((⟨21, 4, "worker", "online", some [("summarize", 3)]⟩ : Agent).capabilitiesOffered =
        none ∨
      ∃ m, (⟨21, 4, "worker", "online", some [("summarize", 3)]⟩ : Agent).capabilitiesOffered =
          some m ∧
        (lookupCap m (⟨5, 9, none, "summarize", .matching, 10, none, none,
          "", 0⟩ : Task).capabilityRequired).isSome) ∧
    (⟨21, 4, "worker", "online", some [("summarize", 3)]⟩ : Agent).id ≠ 0 ∧
    (⟨⟨21, 4, "worker", "online", some [("summarize", 3)]⟩, 3⟩ :
        WorkerCandidate).pricingPerTask ≤
      (⟨5, 9, none, "summarize", .matching, 10, none, none, "", 0⟩ :
        Task).budget :=
  matchmaker_candidate_pool [⟨21, 4, "worker", "online", some [("summarize", 3)]⟩]
    [⟨4, false⟩] ⟨5, 9, none, "summarize", .matching, 10, none, none, "", 0⟩ 0
    (buildCandidates
      (findAvailableWorkers [⟨21, 4, "worker", "online", some [("summarize", 3)]⟩]
        [⟨4, false⟩] "summarize")
      ⟨5, 9, none, "summarize", .matching, 10, none, none, "", 0⟩ 0)
    (List.Perm.refl _)
    ⟨⟨21, 4, "worker", "online", some [("summarize", 3)]⟩, 3⟩ (by decide)

/-- Lemma: `refundAndFail` marks the task failed and credits the requester's
account with the full budget. -/
theorem refundAndFail_spec (agents : List Agent) (t : Task) (es : EscrowState)
    (reqAcc : Nat) (rb : Int)
    (hres : resolveAccountID agents t.requesterAgentID = some reqAcc)
    (hrb : getBalance es.balances reqAcc = some rb) (hbud : 0 < t.budget) :
    (refundAndFail agents t es).1.status = .failed ∧
    getBalance (refundAndFail agents t es).2.balances reqAcc =
      some (rb + t.budget) := by
  obtain ⟨bals2, heq, hsum, hget, hoth⟩ :=
    settleError_spec es t.id reqAcc t.budget rb hrb hbud
  constructor
  · simp [refundAndFail, hres, refundFailed, heq]
  · simp only [refundAndFail, hres, refundFailed, heq]
    exact hget

/-- Attempt bound for the dispatch recursion, by induction on the remaining
retry allowance: the fallback loop makes at most `maxRetries - retryCount`
further attempts, and a dispatch makes at most one more. -/
theorem dispatch_attempt_bound (k : Nat) :
    ∀ env agents (t : Task) es n, maxRetries + 1 - t.retryCount ≤ k →
      (dispatchWithFallback env agents t es n).attempts ≤
        n + (maxRetries - t.retryCount) ∧
      (dispatchToWorker env agents t es n).attempts ≤
        n + 1 + (maxRetries - t.retryCount) := by
  induction k with
  | zero =>
    intro env agents t es n hk
    simp only [maxRetries] at hk
    have hdWF : ∀ (t2 : Task) (es2 : EscrowState) (n2 : Nat),
        t2.retryCount = t.retryCount →
        (dispatchWithFallback env agents t2 es2 n2).attempts ≤
          n2 + (maxRetries - t2.retryCount) := by
      intro t2 es2 n2 hr2
      rw [dispatchWithFallback]
      have hgt : t2.retryCount + 1 > maxRetries := by
        simp only [maxRetries]; omega
      simp only [hgt, if_true, reduceIte]
      exact Nat.le_add_right _ _
    refine ⟨hdWF t es n rfl, ?_⟩
    cases henv : env.http n with
    | netError =>
      rw [dispatchToWorker, henv]
      simpa using hdWF { t with status := .dispatched } es (n + 1) rfl
    | response code =>
      rw [dispatchToWorker, henv]
      by_cases hc : code = 200
      · subst hc
        exact Nat.le_add_right (n + 1) (maxRetries - t.retryCount)
      · simpa [hc] using hdWF { t with status := .dispatched } es (n + 1) rfl
  | succ k ih =>
    intro env agents t es n hk
    have hdWF : ∀ (t2 : Task) (es2 : EscrowState) (n2 : Nat),
        t2.retryCount = t.retryCount →
        (dispatchWithFallback env agents t2 es2 n2).attempts ≤
          n2 + (maxRetries - t2.retryCount) := by
      intro t2 es2 n2 hr2
      rw [dispatchWithFallback]
      by_cases hgt : t2.retryCount + 1 > maxRetries
      · simp only [hgt, if_true, reduceIte]
        exact Nat.le_add_right _ _
      · simp only [hgt, if_false, reduceIte]
        by_cases hfb : env.fallbackWorker (t2.retryCount + 1)
        · simp only [hfb, if_true, reduceIte]
          have hrec := (ih env agents
            { t2 with retryCount := t2.retryCount + 1, status := .matching }
            es2 n2 ?_).2
          · simp only [maxRetries] at hrec hgt ⊢
            omega
          · simp only [maxRetries] at hgt hk ⊢
            omega
        · simp only [hfb, if_false, reduceIte]
          exact Nat.le_add_right _ _
    refine ⟨hdWF t es n rfl, ?_⟩
    cases henv : env.http n with
    | netError =>
      rw [dispatchToWorker, henv]
      simpa using hdWF { t with status := .dispatched } es (n + 1) rfl
    | response code =>
      rw [dispatchToWorker, henv]
      by_cases hc : code = 200
      · subst hc
        exact Nat.le_add_right (n + 1) (maxRetries - t.retryCount)
      · simpa [hc] using hdWF { t with status := .dispatched } es (n + 1) rfl

/-- When every dispatch attempt fails (no HTTP 200), the dispatch recursion
ends with the task `failed` and the full budget refunded to the requester's
account, by induction on the remaining retry allowance. -/
theorem dispatch_all_fail (k : Nat) :
    ∀ env agents (t : Task) es n reqAcc rb,
      maxRetries + 1 - t.retryCount ≤ k →
      resolveAccountID agents t.requesterAgentID = some reqAcc →
      getBalance es.balances reqAcc = some rb →
      0 < t.budget →
      (∀ m, env.http m ≠ .response 200) →
      ((dispatchWithFallback env agents t es n).task.status = .failed ∧
        getBalance (dispatchWithFallback env agents t es n).escrow.balances
          reqAcc = some (rb + t.budget)) ∧
      ((dispatchToWorker env agents t es n).task.status = .failed ∧
        getBalance (dispatchToWorker env agents t es n).escrow.balances
          reqAcc = some (rb + t.budget)) := by
  induction k with
  | zero =>
    intro env agents t es n reqAcc rb hk hres hrb hbud hfail
    have hdWF : ∀ (t2 : Task) (es2 : EscrowState) (n2 : Nat),
        t2.retryCount = t.retryCount →
        t2.requesterAgentID = t.requesterAgentID →
        t2.budget = t.budget →
        getBalance es2.balances reqAcc = some rb →
        (dispatchWithFallback env agents t2 es2 n2).task.status = .failed ∧
        getBalance (dispatchWithFallback env agents t2 es2 n2).escrow.balances
          reqAcc = some (rb + t.budget) := by
      intro t2 es2 n2 hr2 hreq2 hb2 hrb2
      rw [dispatchWithFallback]
      have hgt : t2.retryCount + 1 > maxRetries := by
        simp only [maxRetries] at hk ⊢; omega
      simp only [hgt, if_true, reduceIte]
      have hspec := refundAndFail_spec agents
        { t2 with retryCount := t2.retryCount + 1 } es2 reqAcc rb
        (by simpa [hreq2] using hres) hrb2 (by simpa [hb2] using hbud)
      simpa [hb2] using hspec
    refine ⟨hdWF t es n rfl rfl rfl hrb, ?_⟩
    cases henv : env.http n with
    | netError =>
      rw [dispatchToWorker, henv]
      simpa using hdWF { t with status := .dispatched } es (n + 1)
        rfl rfl rfl hrb
    | response code =>
      by_cases hc : code = 200
      · subst hc; exact absurd henv (hfail n)
      · rw [dispatchToWorker, henv]
        simpa [hc] using hdWF { t with status := .dispatched } es (n + 1)
          rfl rfl rfl hrb
  | succ k ih =>
    intro env agents t es n reqAcc rb hk hres hrb hbud hfail
    have hdWF : ∀ (t2 : Task) (es2 : EscrowState) (n2 : Nat),
        t2.retryCount = t.retryCount →
        t2.requesterAgentID = t.requesterAgentID →
        t2.budget = t.budget →
        getBalance es2.balances reqAcc = some rb →
        (dispatchWithFallback env agents t2 es2 n2).task.status = .failed ∧
        getBalance (dispatchWithFallback env agents t2 es2 n2).escrow.balances
          reqAcc = some (rb + t.budget) := by
      intro t2 es2 n2 hr2 hreq2 hb2 hrb2
      rw [dispatchWithFallback]
      by_cases hgt : t2.retryCount + 1 > maxRetries
      · simp only [hgt, if_true, reduceIte]
        have hspec := refundAndFail_spec agents
          { t2 with retryCount := t2.retryCount + 1 } es2 reqAcc rb
          (by simpa [hreq2] using hres) hrb2 (by simpa [hb2] using hbud)
        simpa [hb2] using hspec
      · simp only [hgt, if_false, reduceIte]
        by_cases hfb : env.fallbackWorker (t2.retryCount + 1)
        · simp only [hfb, if_true, reduceIte]
          have hrec := (ih env agents
            { t2 with retryCount := t2.retryCount + 1, status := .matching }
            es2 n2 reqAcc rb
            (by simp only [maxRetries] at hgt hk ⊢; omega)
            (by simpa [hreq2] using hres) hrb2
            (by simpa [hb2] using hbud) hfail).2
          simpa [hb2] using hrec
        · simp only [hfb, if_false, reduceIte]
          have hspec := refundAndFail_spec agents
            { t2 with retryCount := t2.retryCount + 1, status := .matching }
            es2 reqAcc rb
            (by simpa [hreq2] using hres) hrb2 (by simpa [hb2] using hbud)
          simpa [hb2] using hspec
    refine ⟨hdWF t es n rfl rfl rfl hrb, ?_⟩
    cases henv : env.http n with
    | netError =>
      rw [dispatchToWorker, henv]
      simpa using hdWF { t with status := .dispatched } es (n + 1)
        rfl rfl rfl hrb
    | response code =>
      by_cases hc : code = 200
      · subst hc; exact absurd henv (hfail n)
      · rw [dispatchToWorker, henv]
        simpa [hc] using hdWF { t with status := .dispatched } es (n + 1)
          rfl rfl rfl hrb

/-- C6: Fallback bound — starting from a fresh task (`retry_count = 0`),
the dispatcher makes at most 3 dispatch attempts in every environment
(`dispatchWithFallback` refunds and stops once the incremented retry count
exceeds `maxRetries = 2`), and whenever no attempt returns HTTP 200 —
including the no-worker case — the task ends in the terminal state `failed`
with the full budget refunded to the requester's account. -/
theorem fallback_bound (env : DispatchEnv) (agents : List Agent)
    (task : Task) (es : EscrowState) (reqAcc : Nat) (rb : Int)
    (h0 : task.retryCount = 0)
    (hres : resolveAccountID agents task.requesterAgentID = some reqAcc)
    (hrb : getBalance es.balances reqAcc = some rb)
    (hbud : 0 < task.budget)
    (hfail : ∀ m, env.http m ≠ .response 200) :
    (dispatchTask env agents task es).attempts ≤ 3 ∧
    (dispatchTask env agents task es).task.status = .failed ∧
    getBalance (dispatchTask env agents task es).escrow.balances reqAcc =
      some (rb + task.budget) := by
  rw [dispatchTask]
  by_cases hbw : env.bestWorker
  · rw [if_pos hbw]
    have hb := (dispatch_attempt_bound 3 env agents task es 0
      (by simp only [maxRetries]; omega)).2
    have hf := (dispatch_all_fail 3 env agents task es 0 reqAcc rb
      (by simp only [maxRetries]; omega) hres hrb hbud hfail).2
    refine ⟨?_, hf.1, hf.2⟩
    simp only [maxRetries, h0] at hb
    omega
  · rw [if_neg hbw]
    have hspec := refundAndFail_spec agents task es reqAcc rb hres hrb hbud
    exact ⟨by show (0 : Nat) ≤ 3; omega, hspec.1, hspec.2⟩

/-- Witness for `fallback_bound`: worker endpoints always answer 503 and a
fallback worker is always available; the task (budget 10, requester agent 9
on account 3) is dispatched 3 times, then fails with account 3 refunded
from 0 to 10. -/
theorem fallback_bound_witness :
    (dispatchTask ⟨true, fun _ => .response 503, fun _ => true⟩
        [⟨9, 3, "requester", "online", none⟩]
        ⟨5, 9, none, "summarize", .matching, 10, none, none, "", 0⟩
        ⟨[(3, 0)], []⟩).attempts ≤ 3 ∧
    (dispatchTask ⟨true, fun _ => .response 503, fun _ => true⟩
        [⟨9, 3, "requester", "online", none⟩]
        ⟨5, 9, none, "summarize", .matching, 10, none, none, "", 0⟩
        ⟨[(3, 0)], []⟩).task.status = .failed ∧
    getBalance (dispatchTask ⟨true, fun _ => .response 503, fun _ => true⟩
        [⟨9, 3, "requester", "online", none⟩]
        ⟨5, 9, none, "summarize", .matching, 10, none, none, "", 0⟩
        ⟨[(3, 0)], []⟩).escrow.balances 3 =
      some (0 + (⟨5, 9, none, "summarize", .matching, 10, none, none, "",
        0⟩ : Task).budget) :=
  fallback_bound ⟨true, fun _ => .response 503, fun _ => true⟩
    [⟨9, 3, "requester", "online", none⟩]
    ⟨5, 9, none, "summarize", .matching, 10, none, none, "", 0⟩
    ⟨[(3, 0)], []⟩ 3 0 rfl rfl rfl (by decide) (by intro m; simp)

end InaiUrai
